import Mathlib

/-!
Verification of the reservation conflict engine of the Paladium property
rental service: the booking data model (`src/lib/models/Booking.ts`), the
date and availability helpers (`src/lib/bookingHelpers.ts`), the
transactional booking route (`src/app/api/properties/[id]/route.ts` POST),
the availability route (GET/POST `/api/availability`), and the
conversational agent booking functions (`src/lib/agent.ts`).

Dates are embedded as integer milliseconds since the epoch, exactly the
values `Date.getTime()` yields; a failed parse (an Invalid Date, `NaN`)
is `none`.  Document ids are naturals; the store carries a fresh-id
counter standing for client-side ObjectId generation.
-/

/-- Booking status enumeration from `BookingSchema` in `Booking.ts`. -/
inductive BStatus
  | pending
  | confirmed
  | cancelled
  | completed
deriving DecidableEq

/-- One day in milliseconds, `24 * 60 * 60 * 1000`. -/
def dayMs : Int := 86400000

/-- A stored reservation record (`IBooking`).  The source field names
`from` and `to` are Lean keywords and are embedded as `fromDate` and
`toDate`. -/
structure Booking where
  id : Nat
  propertyId : Nat
  guestId : Nat
  fromDate : Int
  toDate : Int
  totalPrice : Int
  status : BStatus
deriving DecidableEq

/-- The slice of a catalog property the engine reads (`IProperty`):
identity and nightly price. -/
structure Property where
  id : Nat
  price : Int
deriving DecidableEq

/-- The reservation store: the bookings collection plus the fresh-id
counter. -/
structure Store where
  bookings : List Booking
  nextId : Nat
deriving DecidableEq

def emptyStore : Store := ⟨[], 0⟩

/-- `Property.findById`. -/
def findProperty (props : List Property) (pid : Nat) : Option Property :=
  props.find? (fun p => p.id == pid)

/-- The two-conjunct overlap test used by `checkPropertyAvailability` and
the transactional route: the query keeps an existing booking when
`existing.from < requestedEnd` and `existing.to > requestedStart`
(`from: \x7b $lt: endDate \x7d, to: \x7b $gt: startDate \x7d`). -/
def overlaps (aFrom aTo bFrom bTo : Int) : Bool :=
  decide (aFrom < bTo) && decide (aTo > bFrom)

/-- The three OR'd sub-cases used by the `Booking` pre-save hook and the
agent booking functions: starts during, ends during, or encompasses. -/
def overlapsOr (eFrom eTo nFrom nTo : Int) : Bool :=
  (decide (eFrom ≤ nFrom) && decide (eTo > nFrom)) ||
  (decide (eFrom < nTo) && decide (eTo ≥ nTo)) ||
  (decide (eFrom ≥ nFrom) && decide (eTo ≤ nTo))

/-- A status that consumes capacity per the spec: `pending` or
`confirmed`. -/
def isActive (b : Booking) : Bool :=
  b.status == BStatus.pending || b.status == BStatus.confirmed

/-- `calculateNights` from `bookingHelpers.ts` and `agent.ts`:
`Math.ceil((endDate - startDate) / 86400000)`. -/
def calculateNights (startD endD : Int) : Int :=
  (endD - startD + (dayMs - 1)).fdiv dayMs

/-- The bookings returned by the `status: \x7b $nin: ['cancelled'] \x7d`
two-conjunct overlap query of the transactional route. -/
def findOverlapping (s : Store) (pid : Nat) (startD endD : Int) : List Booking :=
  s.bookings.filter (fun b =>
    b.propertyId == pid && b.status != BStatus.cancelled &&
    overlaps b.fromDate b.toDate startD endD)

/-- The agent's `checkAvailability` conflict probe (`findOne` with the
three OR'd sub-cases and `$nin: ['cancelled']`): `true` when some
blocking booking exists. -/
def agentBlocks (s : Store) (pid : Nat) (startD endD : Int) : Bool :=
  s.bookings.any (fun b =>
    b.propertyId == pid && b.status != BStatus.cancelled &&
    overlapsOr b.fromDate b.toDate startD endD)

/-- The pre-save hook's conflict probe from `Booking.ts`: the same three
sub-cases, excluding the document being saved (`_id: \x7b $ne: this._id \x7d`). -/
def hookBlocks (s : Store) (excludeId : Nat) (pid : Nat) (startD endD : Int) : Bool :=
  s.bookings.any (fun b =>
    b.id != excludeId && b.propertyId == pid && b.status != BStatus.cancelled &&
    overlapsOr b.fromDate b.toDate startD endD)

/-- Outcome of a creation attempt; `conflict` carries the interval list the
failure reports to the caller (empty when the code reports none). -/
inductive CreateResult
  | created (b : Booking)
  | conflict (reported : List (Int × Int))
  | invalid (msg : String)
  | notFound
deriving DecidableEq

/-- `Booking.create`: builds the document with a fresh id and runs the
pre-save hook — the overlap probe, then the `from >= to` check — before
inserting.  A hook failure surfaces as a thrown error carrying a message
only, hence the empty reported list. -/
def bookingCreate (s : Store) (pid gid : Nat) (startD endD price : Int) :
    CreateResult × Store :=
  let nb : Booking := ⟨s.nextId, pid, gid, startD, endD, price, BStatus.confirmed⟩
  if hookBlocks s nb.id pid startD endD then
    (.conflict [], s)
  else if startD ≥ endD then
    (.invalid "Check-in date must be before check-out date", s)
  else
    (.created nb, ⟨nb :: s.bookings, s.nextId + 1⟩)

/-- The transactional booking route POST (`/api/properties/[id]/route.ts`
lines 155-316): date validation, property lookup, two-conjunct conflict
query, then `Booking.create`, modelled as one atomic step because the code
wraps the check and the insert in a single MongoDB session transaction.
The auth and user-identity guards belong to the external collaborator and
abort without writing; they are omitted.  The request's `totalPrice` is
stored exactly as received from the client. -/
def routeCreate (props : List Property) (s : Store) (pid gid : Nat)
    (sd ed : Option Int) (reqPrice now : Int) : CreateResult × Store :=
  match sd, ed with
  | some startD, some endD =>
    if startD ≥ endD then
      (.invalid "Check-out date must be after check-in date", s)
    else if startD < now then
      (.invalid "Check-in date cannot be in the past", s)
    else if endD - startD > 365 * dayMs then
      (.invalid "Booking duration cannot exceed 365 days", s)
    else
      match findProperty props pid with
      | none => (.notFound, s)
      | some _ =>
        let conflicts := findOverlapping s pid startD endD
        if conflicts.isEmpty then
          bookingCreate s pid gid startD endD reqPrice
        else
          (.conflict (conflicts.map (fun b => (b.fromDate, b.toDate))), s)
  | _, _ => (.invalid "Invalid date format. Please use ISO 8601 format YYYY-MM-DD", s)

/-- The agent's `confirmBooking` (`agent.ts` lines 348-410) as a single
sequential step: property lookup, three-sub-case conflict probe, price
computation `nights * property.price`, then `Booking.create` (which reruns
the hook).  The code issues these as separate unsynchronized awaited
database calls; the interleaved decomposition is `confStep` below.  The
conflict error it throws carries a message only, no interval list. -/
def confirmBooking (props : List Property) (s : Store) (pid gid : Nat)
    (startD endD : Int) : CreateResult × Store :=
  match findProperty props pid with
  | none => (.notFound, s)
  | some p =>
    if agentBlocks s pid startD endD then
      (.conflict [], s)
    else
      bookingCreate s pid gid startD endD (calculateNights startD endD * p.price)

inductive CancelResult
  | ok
  | notFound
  | notOwner
  | alreadyCancelled
deriving DecidableEq

/-- The agent's `cancelBooking`: ownership and not-already-cancelled
guards, then a status-only update (the pre-save hook skips documents whose
dates are unmodified). -/
def cancelBooking (s : Store) (bid uid : Nat) : CancelResult × Store :=
  match s.bookings.find? (fun b => b.id == bid) with
  | none => (.notFound, s)
  | some b =>
    if b.guestId ≠ uid then (.notOwner, s)
    else if b.status = BStatus.cancelled then (.alreadyCancelled, s)
    else
      (.ok, ⟨s.bookings.map (fun x =>
        if x.id == bid then { x with status := BStatus.cancelled } else x), s.nextId⟩)

/-- Modelled from the spec: the time-driven external process of section 3
(Lifecycle) that moves a reservation to `completed` once its `to` date is
past; no code under src implements this transition. -/
def markCompleted (s : Store) (bid : Nat) (now : Int) : Store :=
  ⟨s.bookings.map (fun x =>
      if x.id == bid && decide (x.toDate < now) then
        { x with status := BStatus.completed }
      else x),
   s.nextId⟩

/-- One engine operation, as invoked by the external collaborators. -/
inductive Op
  | route (pid gid : Nat) (sd ed : Option Int) (reqPrice now : Int)
  | agent (pid gid : Nat) (startD endD : Int)
  | cancel (bid uid : Nat)
  | complete (bid : Nat) (now : Int)

/-- The store after one engine operation. -/
def stepOp (props : List Property) (s : Store) : Op → Store
  | .route pid gid sd ed rp now => (routeCreate props s pid gid sd ed rp now).2
  | .agent pid gid startD endD => (confirmBooking props s pid gid startD endD).2
  | .cancel bid uid => (cancelBooking s bid uid).2
  | .complete bid now => markCompleted s bid now

/-- The store after a sequence of engine operations. -/
def runOps (props : List Property) (ops : List Op) (s : Store) : Store :=
  ops.foldl (stepOp props) s

inductive AvailResult
  | errNF (msg : String)
  | notAvailable (conflicts : List (Nat × Int × Int × BStatus))
  | available
deriving DecidableEq

/-- `checkPropertyAvailability` from `bookingHelpers.ts`: property lookup,
then the `$nin: ['cancelled']` two-conjunct overlap query with an optional
excluded booking id; reports the conflicting bookings if any. -/
def checkPropertyAvailability (props : List Property) (s : Store) (pid : Nat)
    (startD endD : Int) (excludeId : Option Nat) : AvailResult :=
  match findProperty props pid with
  | none => .errNF "Property not found"
  | some _ =>
    let ov := s.bookings.filter (fun b =>
      b.propertyId == pid && b.status != BStatus.cancelled &&
      overlaps b.fromDate b.toDate startD endD &&
      (match excludeId with
       | none => true
       | some e => b.id != e))
    if ov.isEmpty then .available
    else .notAvailable (ov.map (fun b => (b.id, b.fromDate, b.toDate, b.status)))

inductive ValidationResult
  | valid
  | invalid (msg : String)
deriving DecidableEq

/-- `validateBookingDates` from `bookingHelpers.ts`; `none` is an
unparseable (`NaN`) date and `now` is the current instant `new Date()`. -/
def validateBookingDates (sd ed : Option Int) (now : Int) : ValidationResult :=
  match sd, ed with
  | some startD, some endD =>
    if startD ≥ endD then .invalid "Check-out date must be after check-in date"
    else if startD < now then .invalid "Check-in date cannot be in the past"
    else if endD - startD > 365 * dayMs then .invalid "Booking duration cannot exceed 365 days"
    else if endD - startD < dayMs then .invalid "Booking duration must be at least 1 day"
    else .valid
  | _, _ => .invalid "Invalid date format. Please use ISO 8601 format YYYY-MM-DD"

inductive GetResult
  | badRequest (msg : String)
  | notFoundR (msg : String)
  | verdict (available : Bool) (conflicts : List (Nat × Int × Int × BStatus))
deriving DecidableEq

/-- The single availability route GET: parses the dates, runs
`validateBookingDates`, and only on success runs
`checkPropertyAvailability`. -/
def availabilityGET (props : List Property) (s : Store) (pid : Nat)
    (sd ed : Option Int) (now : Int) : GetResult :=
  match sd, ed with
  | some startD, some endD =>
    match validateBookingDates (some startD) (some endD) now with
    | .invalid m => .badRequest m
    | .valid =>
      match checkPropertyAvailability props s pid startD endD none with
      | .errNF m => .notFoundR m
      | .notAvailable cs => .verdict false cs
      | .available => .verdict true []
  | _, _ => .badRequest "Invalid date format. Please use ISO 8601 format YYYY-MM-DD"

inductive QuoteResult
  | quote (nights totalPrice : Int)
  | conflictQ
  | invalidQ (msg : String)
  | notFoundQ
deriving DecidableEq

/-- The agent's `prepareBooking` (`agent.ts` lines 274-345): property
lookup, date checks (`today` is the current day's midnight, the value of
`setHours(0,0,0,0)`), the three-sub-case conflict probe, then the priced
summary.  Every branch returns the store it was given: the function issues
reads only. -/
def prepareBooking (props : List Property) (s : Store) (pid : Nat)
    (startD endD today : Int) : QuoteResult × Store :=
  match findProperty props pid with
  | none => (.notFoundQ, s)
  | some p =>
    if startD ≥ endD then (.invalidQ "Check-out date must be after check-in date", s)
    else if startD < today then (.invalidQ "Check-in date cannot be in the past", s)
    else if agentBlocks s pid startD endD then (.conflictQ, s)
    else (.quote (calculateNights startD endD) (calculateNights startD endD * p.price), s)

/-- One awaited database operation of a `confirmBooking` call, for the
interleaving analysis.  Program counter 0 is the `checkAvailability`
probe, 1 the pre-save hook probe inside `Booking.create`, 2 the actual
insert; 3 is success, 4 conflict failure, 5 invalid-date failure.  `tid`
is the document id generated client-side before saving. -/
def confStep (price : Int) (pid gid tid : Nat) (startD endD : Int)
    (pc : Nat) (s : Store) : Nat × Store :=
  match pc with
  | 0 => if agentBlocks s pid startD endD then (4, s) else (1, s)
  | 1 =>
    if hookBlocks s tid pid startD endD then (4, s)
    else if startD ≥ endD then (5, s)
    else (2, s)
  | 2 =>
    (3, ⟨(⟨tid, pid, gid, startD, endD, calculateNights startD endD * price,
          BStatus.confirmed⟩ : Booking) :: s.bookings, s.nextId⟩)
  | n => (n, s)

/-- Run two concurrent `confirmBooking` calls for the same property and
range under a given interleaving: `true` schedules the next database
operation of the first call (guest `g1`, document id 0), `false` one of
the second (guest `g2`, document id 1). -/
def runTwo (price : Int) (pid g1 g2 : Nat) (startD endD : Int) :
    List Bool → Nat × Nat × Store → Nat × Nat × Store
  | [], cfg => cfg
  | t :: rest, (pc1, pc2, s) =>
    if t then
      let r := confStep price pid g1 0 startD endD pc1 s
      runTwo price pid g1 g2 startD endD rest (r.1, pc2, r.2)
    else
      let r := confStep price pid g2 1 startD endD pc2 s
      runTwo price pid g1 g2 startD endD rest (pc1, r.1, r.2)

/-- The pairwise no-double-booking relation: two records on the same
property that both hold capacity must not overlap. -/
def goodPair (a b : Booking) : Prop :=
  a.propertyId = b.propertyId → isActive a = true → isActive b = true →
    overlaps a.fromDate a.toDate b.fromDate b.toDate = false

/-- The store invariant: every record has a valid range, record ids are
below the fresh-id counter, and records are pairwise conflict-free. -/
def StoreInv (s : Store) : Prop :=
  (∀ b ∈ s.bookings, b.fromDate < b.toDate) ∧
  (∀ b ∈ s.bookings, b.id < s.nextId) ∧
  s.bookings.Pairwise goodPair

theorem overlaps_eq_true_iff (aF aT bF bT : Int) :
    overlaps aF aT bF bT = true ↔ (aF < bT ∧ bF < aT) := by
  simp [overlaps]

theorem overlaps_eq_false_iff (aF aT bF bT : Int) :
    overlaps aF aT bF bT = false ↔ (bT ≤ aF ∨ aT ≤ bF) := by
  rw [← Bool.not_eq_true, overlaps_eq_true_iff]
  omega

theorem overlapsOr_eq_true_iff (eF eT nF nT : Int) :
    overlapsOr eF eT nF nT = true ↔
      ((eF ≤ nF ∧ nF < eT) ∨ (eF < nT ∧ nT ≤ eT) ∨ (nF ≤ eF ∧ eT ≤ nT)) := by
  simp [overlapsOr]
  omega

theorem overlaps_false_comm (aF aT bF bT : Int)
    (h : overlaps aF aT bF bT = false) : overlaps bF bT aF aT = false := by
  rw [overlaps_eq_false_iff] at h ⊢
  omega

theorem overlapsOr_eq_overlaps (eF eT nF nT : Int) (he : eF < eT) (hn : nF < nT) :
    overlapsOr eF eT nF nT = overlaps eF eT nF nT := by
  rw [Bool.eq_iff_iff, overlapsOr_eq_true_iff, overlaps_eq_true_iff]
  omega

/-- C4: the two-conjunct overlap predicate used for conflict detection
satisfies the four boundary laws: identical valid ranges conflict, ranges
touching only at a shared endpoint do not conflict, a contained range
conflicts, and disjoint ranges do not conflict. -/
theorem C4_overlap_predicate_cases :
    (∀ f t : Int, f < t → overlaps f t f t = true) ∧
    (∀ a b c : Int, overlaps a b b c = false ∧ overlaps b c a b = false) ∧
    (∀ a b c d : Int, a ≤ c → c < d → d ≤ b → overlaps a b c d = true) ∧
    (∀ a b c d : Int, b ≤ c → overlaps a b c d = false) := by
  refine ⟨?_, ?_, ?_, ?_⟩
  · intro f t h
    rw [overlaps_eq_true_iff]
    omega
  · intro a b c
    constructor <;> (rw [overlaps_eq_false_iff]; omega)
  · intro a b c d h1 h2 h3
    rw [overlaps_eq_true_iff]
    omega
  · intro a b c d h
    rw [overlaps_eq_false_iff]
    omega

/-- Witness for C4 at the concrete ranges of the spec: identical `[1,5)`,
adjacent `[1,5)`/`[5,9)`, containment `[1,10)`/`[3,5)`, disjoint
`[1,3)`/`[5,7)`. -/
theorem C4_overlap_predicate_cases_witness :
    overlaps 1 5 1 5 = true ∧ overlaps 1 5 5 9 = false ∧
    overlaps 1 10 3 5 = true ∧ overlaps 1 3 5 7 = false := by
  obtain ⟨h1, h2, h3, h4⟩ := C4_overlap_predicate_cases
  exact ⟨h1 1 5 (by decide), (h2 1 5 9).1,
    h3 1 10 3 5 (by decide) (by decide) (by decide), h4 1 3 5 7 (by decide)⟩

/-- C5: for valid intervals the helpers' two-conjunct conflict formula and
the pre-save hook and agent three-sub-case formula classify every pair
identically. -/
theorem C5_overlap_formulas_agree (eF eT nF nT : Int) (he : eF < eT) (hn : nF < nT) :
    (overlaps eF eT nF nT = true ↔ overlapsOr eF eT nF nT = true) := by
  rw [overlapsOr_eq_overlaps eF eT nF nT he hn]

/-- Witness for C5 at a concrete pair of valid intervals. -/
theorem C5_overlap_formulas_agree_witness :
    (overlaps 1 5 2 8 = true ↔ overlapsOr 1 5 2 8 = true) :=
  C5_overlap_formulas_agree 1 5 2 8 (by decide) (by decide)

theorem isActive_ne_cancelled (b : Booking) (h : isActive b = true) :
    b.status ≠ BStatus.cancelled := by
  unfold isActive at h
  cases hs : b.status <;> simp [hs] at h ⊢

theorem goodPair_symm {a b : Booking} (h : goodPair a b) : goodPair b a := by
  intro hpid hb ha
  exact overlaps_false_comm _ _ _ _ (h hpid.symm ha hb)

theorem storeInv_bookingCreate (s : Store) (pid gid : Nat) (startD endD price : Int)
    (h : StoreInv s) : StoreInv (bookingCreate s pid gid startD endD price).2 := by
  obtain ⟨hval, hid, hpw⟩ := h
  unfold bookingCreate
  by_cases hblk : hookBlocks s s.nextId pid startD endD
  · rw [if_pos hblk]
    exact ⟨hval, hid, hpw⟩
  · by_cases hge : startD ≥ endD
    · rw [if_neg hblk, if_pos hge]
      exact ⟨hval, hid, hpw⟩
    · rw [if_neg hblk, if_neg hge]
      rw [Bool.not_eq_true] at hblk
      unfold hookBlocks at hblk
      rw [List.any_eq_false] at hblk
      refine ⟨?_, ?_, ?_⟩
      · intro b hb
        rcases List.mem_cons.mp hb with rfl | hmem
        · exact lt_of_not_ge hge
        · exact hval b hmem
      · intro b hb
        rcases List.mem_cons.mp hb with rfl | hmem
        · exact Nat.lt_succ_self _
        · exact Nat.lt_succ_of_lt (hid b hmem)
      · rw [List.pairwise_cons]
        refine ⟨?_, hpw⟩
        intro b hb hpid hactn hactb
        have hbfalse := hblk b hb
        simp only [Bool.and_eq_true, bne_iff_ne, beq_iff_eq, Bool.not_eq_true] at hbfalse
        push_neg at hbfalse
        have hbne : b.id ≠ s.nextId := Nat.ne_of_lt (hid b hb)
        have hbpid : b.propertyId = pid := hpid.symm
        have hbst : b.status ≠ BStatus.cancelled := isActive_ne_cancelled b hactb
        have hov : overlapsOr b.fromDate b.toDate startD endD = false := by
          rw [Bool.eq_false_iff]
          exact hbfalse ⟨⟨hbne, hbpid⟩, hbst⟩
        have hov2 : overlaps b.fromDate b.toDate startD endD = false := by
          rw [← overlapsOr_eq_overlaps b.fromDate b.toDate startD endD
            (hval b hb) (lt_of_not_ge hge)]
          exact hov
        exact overlaps_false_comm _ _ _ _ hov2

theorem storeInv_mapStatus (s : Store) (g : Booking → Booking)
    (hg : ∀ b, ∃ st, g b = { b with status := st })
    (hact : ∀ b, isActive (g b) = true → isActive b = true)
    (h : StoreInv s) : StoreInv ⟨s.bookings.map g, s.nextId⟩ := by
  obtain ⟨hval, hid, hpw⟩ := h
  refine ⟨?_, ?_, ?_⟩
  · intro b hb
    obtain ⟨a, ha, rfl⟩ := List.mem_map.mp hb
    obtain ⟨st, hst⟩ := hg a
    rw [hst]
    exact hval a ha
  · intro b hb
    obtain ⟨a, ha, rfl⟩ := List.mem_map.mp hb
    obtain ⟨st, hst⟩ := hg a
    rw [hst]
    exact hid a ha
  · rw [List.pairwise_map]
    refine hpw.imp ?_
    intro a b hab hpid hga hgb
    obtain ⟨st1, h1⟩ := hg a
    obtain ⟨st2, h2⟩ := hg b
    rw [h1, h2] at hpid ⊢
    exact hab hpid (hact a hga) (hact b hgb)

theorem storeInv_cancelBooking (s : Store) (bid uid : Nat)
    (h : StoreInv s) : StoreInv (cancelBooking s bid uid).2 := by
  unfold cancelBooking
  cases hf : s.bookings.find? (fun b => b.id == bid) with
  | none => exact h
  | some b =>
    dsimp only
    by_cases hown : b.guestId ≠ uid
    · rw [if_pos hown]
      exact h
    · rw [if_neg hown]
      by_cases hcan : b.status = BStatus.cancelled
      · rw [if_pos hcan]
        exact h
      · rw [if_neg hcan]
        refine storeInv_mapStatus s _ ?_ ?_ h
        · intro x
          by_cases hx : x.id == bid
          · exact ⟨BStatus.cancelled, by rw [if_pos hx]⟩
          · exact ⟨x.status, by rw [if_neg hx]⟩
        · intro x hx
          by_cases hxb : x.id == bid
          · rw [if_pos hxb] at hx
            simp [isActive] at hx
          · rwa [if_neg hxb] at hx

theorem storeInv_markCompleted (s : Store) (bid : Nat) (now : Int)
    (h : StoreInv s) : StoreInv (markCompleted s bid now) := by
  unfold markCompleted
  refine storeInv_mapStatus s _ ?_ ?_ h
  · intro x
    by_cases hx : (x.id == bid && decide (x.toDate < now)) = true
    · exact ⟨BStatus.completed, by rw [if_pos hx]⟩
    · exact ⟨x.status, by rw [if_neg hx]⟩
  · intro x hx
    by_cases hxb : (x.id == bid && decide (x.toDate < now)) = true
    · rw [if_pos hxb] at hx
      simp [isActive] at hx
    · rwa [if_neg hxb] at hx

theorem storeInv_stepOp (props : List Property) (s : Store) (op : Op)
    (h : StoreInv s) : StoreInv (stepOp props s op) := by
  cases op with
  | route pid gid sd ed rp now =>
    show StoreInv (routeCreate props s pid gid sd ed rp now).2
    unfold routeCreate
    rcases sd with _ | startD
    · exact h
    rcases ed with _ | endD
    · exact h
    dsimp only
    by_cases h1 : startD ≥ endD
    · rw [if_pos h1]; exact h
    rw [if_neg h1]
    by_cases h2 : startD < now
    · rw [if_pos h2]; exact h
    rw [if_neg h2]
    by_cases h3 : endD - startD > 365 * dayMs
    · rw [if_pos h3]; exact h
    rw [if_neg h3]
    cases findProperty props pid with
    | none => exact h
    | some p =>
      dsimp only
      by_cases h4 : (findOverlapping s pid startD endD).isEmpty
      · rw [if_pos h4]
        exact storeInv_bookingCreate s pid gid startD endD rp h
      · rw [if_neg h4]
        exact h
  | agent pid gid startD endD =>
    show StoreInv (confirmBooking props s pid gid startD endD).2
    unfold confirmBooking
    cases findProperty props pid with
    | none => exact h
    | some p =>
      dsimp only
      by_cases hb : agentBlocks s pid startD endD
      · rw [if_pos hb]
        exact h
      · rw [if_neg hb]
        exact storeInv_bookingCreate s pid gid startD endD _ h
  | cancel bid uid =>
    exact storeInv_cancelBooking s bid uid h
  | complete bid now =>
    exact storeInv_markCompleted s bid now h

theorem storeInv_runOps (props : List Property) (ops : List Op) (s : Store)
    (h : StoreInv s) : StoreInv (runOps props ops s) := by
  induction ops generalizing s with
  | nil => exact h
  | cons op rest ih => exact ih (stepOp props s op) (storeInv_stepOp props s op h)

theorem storeInv_emptyStore : StoreInv emptyStore := by
  refine ⟨?_, ?_, ?_⟩ <;> simp [emptyStore]

/-- C1: in every store state reachable from the empty store by any
sequence of engine operations (transactional route creation, agent
creation, cancellation, and the spec's completed transition), no two
distinct stored reservations on the same resource that both have status
pending or confirmed have overlapping half-open intervals, where the
intervals of `a` and `b` overlap iff `a.from < b.to` and `a.to > b.from`. -/
theorem C1_engine_preserves_no_overlap (props : List Property) (ops : List Op)
    (a b : Booking)
    (ha : a ∈ (runOps props ops emptyStore).bookings)
    (hb : b ∈ (runOps props ops emptyStore).bookings)
    (hne : a ≠ b) (hpid : a.propertyId = b.propertyId)
    (hacta : isActive a = true) (hactb : isActive b = true) :
    overlaps a.fromDate a.toDate b.fromDate b.toDate = false := by
  have hinv := storeInv_runOps props ops emptyStore storeInv_emptyStore
  have hsym : Symmetric goodPair := fun x y hxy => goodPair_symm hxy
  exact hinv.2.2.forall hsym ha hb hne hpid hacta hactb

/-- Witness for C1: a store reached by two adjacent route creations holds
two distinct confirmed reservations, which the invariant proves
non-overlapping. -/
theorem C1_engine_preserves_no_overlap_witness :
    overlaps (0 : Int) dayMs dayMs (2 * dayMs) = false :=
  C1_engine_preserves_no_overlap [⟨1, 100⟩]
    [.route 1 7 (some 0) (some dayMs) 100 0,
     .route 1 8 (some dayMs) (some (2 * dayMs)) 100 0]
    ⟨0, 1, 7, 0, dayMs, 100, BStatus.confirmed⟩
    ⟨1, 1, 8, dayMs, 2 * dayMs, 100, BStatus.confirmed⟩
    (by decide) (by decide) (by decide) rfl rfl rfl

/-- C2: demonstration of the code bug.  Two concurrent `confirmBooking`
calls for property 1 and the identical range, interleaved so that both
availability probes and both pre-save hook probes run before either
insert, BOTH reach the success state (program counter 3) and the store
ends with two overlapping confirmed reservations for the same property —
the claim requires exactly one success and one Conflict. -/
theorem C2_race_both_commits_succeed :
    runTwo 100 1 7 8 dayMs (2 * dayMs) [true, false, true, false, true, false]
        (0, 0, emptyStore) =
      (3, 3,
        ⟨[⟨1, 1, 8, dayMs, 2 * dayMs, 100, BStatus.confirmed⟩,
          ⟨0, 1, 7, dayMs, 2 * dayMs, 100, BStatus.confirmed⟩], 0⟩) ∧
    overlaps dayMs (2 * dayMs) dayMs (2 * dayMs) = true := by
  exact ⟨by decide, by decide⟩

/-- C3 counterexample: the conflict filter excludes only status
`cancelled`, so a `completed` reservation overlapping the requested range
IS reported as a conflict and blocks the range, contradicting the claim
that `completed` never blocks. -/
theorem C3_completed_blocks_counterexample :
    checkPropertyAvailability [⟨1, 100⟩]
        ⟨[⟨0, 1, 5, 0, 10 * dayMs, 100, BStatus.completed⟩], 1⟩
        1 0 (10 * dayMs) none =
      .notAvailable [(0, 0, 10 * dayMs, BStatus.completed)] := by
  decide

/-- C3 amended: in every conflict check, exactly the reservations with
status other than `cancelled` participate: `checkPropertyAvailability`
answers available iff every non-cancelled reservation of the property
fails the two-conjunct overlap test, and the agent's probe blocks iff
some non-cancelled reservation of the property passes the three-sub-case
test; `pending`, `confirmed` and `completed` all block. -/
theorem C3_only_cancelled_excluded :
    (∀ props s pid startD endD p, findProperty props pid = some p →
      (checkPropertyAvailability props s pid startD endD none = .available ↔
        ∀ b ∈ s.bookings, b.propertyId = pid → b.status ≠ BStatus.cancelled →
          overlaps b.fromDate b.toDate startD endD = false)) ∧
    (∀ s pid startD endD,
      agentBlocks s pid startD endD = false ↔
        ∀ b ∈ s.bookings, b.propertyId = pid → b.status ≠ BStatus.cancelled →
          overlapsOr b.fromDate b.toDate startD endD = false) := by
  constructor
  · intro props s pid startD endD p hfp
    unfold checkPropertyAvailability
    rw [hfp]
    dsimp only
    by_cases hl : (s.bookings.filter (fun b =>
        b.propertyId == pid && b.status != BStatus.cancelled &&
        overlaps b.fromDate b.toDate startD endD && true)).isEmpty
    · rw [if_pos hl]
      simp only [true_iff]
      rw [List.isEmpty_iff, List.filter_eq_nil_iff] at hl
      intro b hb hbpid hbst
      have := hl b hb
      simp only [Bool.and_true, Bool.and_eq_true, bne_iff_ne, beq_iff_eq,
        Bool.not_eq_true] at this
      push_neg at this
      rw [Bool.eq_false_iff]
      exact this ⟨hbpid, hbst⟩
    · rw [if_neg hl]
      constructor
      · intro hfalse
        exact absurd hfalse (by simp)
      · intro hall
        exfalso
        apply hl
        rw [List.isEmpty_iff, List.filter_eq_nil_iff]
        intro b hb
        simp only [Bool.and_true, Bool.and_eq_true, bne_iff_ne, beq_iff_eq,
          Bool.not_eq_true]
        push_neg
        intro hh
        rw [← Bool.eq_false_iff]
        exact hall b hb hh.1 hh.2
  · intro s pid startD endD
    unfold agentBlocks
    rw [List.any_eq_false]
    constructor
    · intro hall b hb hbpid hbst
      have := hall b hb
      simp only [Bool.and_eq_true, bne_iff_ne, beq_iff_eq, Bool.not_eq_true] at this
      push_neg at this
      rw [Bool.eq_false_iff]
      exact this ⟨hbpid, hbst⟩
    · intro hall b hb
      simp only [Bool.and_eq_true, bne_iff_ne, beq_iff_eq, Bool.not_eq_true]
      push_neg
      intro hh
      rw [← Bool.eq_false_iff]
      exact hall b hb hh.1 hh.2

/-- Witness for C3 amended: a property with an empty store is available. -/
theorem C3_only_cancelled_excluded_witness :
    checkPropertyAvailability [⟨1, 100⟩] emptyStore 1 0 dayMs none = .available :=
  (C3_only_cancelled_excluded.1 [⟨1, 100⟩] emptyStore 1 0 dayMs ⟨1, 100⟩
    (by decide)).mpr (by simp [emptyStore])

theorem bookingCreate_created (s : Store) (pid gid : Nat) (startD endD price : Int)
    (b : Booking) (s2 : Store)
    (h : bookingCreate s pid gid startD endD price = (.created b, s2)) :
    b = ⟨s.nextId, pid, gid, startD, endD, price, BStatus.confirmed⟩ ∧
    s2 = ⟨b :: s.bookings, s.nextId + 1⟩ := by
  unfold bookingCreate at h
  by_cases hblk : hookBlocks s s.nextId pid startD endD
  · rw [if_pos hblk] at h
    exact absurd h (by simp)
  · rw [if_neg hblk] at h
    by_cases hge : startD ≥ endD
    · rw [if_pos hge] at h
      exact absurd h (by simp)
    · rw [if_neg hge] at h
      simp only [Prod.mk.injEq, CreateResult.created.injEq] at h
      obtain ⟨hb, hs⟩ := h
      subst hb
      exact ⟨rfl, hs.symm⟩

theorem bookingCreate_conflict (s : Store) (pid gid : Nat) (startD endD price : Int)
    (l : List (Int × Int)) (s2 : Store)
    (h : bookingCreate s pid gid startD endD price = (.conflict l, s2)) :
    s2 = s ∧ l = [] := by
  unfold bookingCreate at h
  by_cases hblk : hookBlocks s s.nextId pid startD endD
  · rw [if_pos hblk] at h
    simp only [Prod.mk.injEq, CreateResult.conflict.injEq] at h
    exact ⟨h.2.symm, h.1.symm⟩
  · rw [if_neg hblk] at h
    by_cases hge : startD ≥ endD
    · rw [if_pos hge] at h
      exact absurd h (by simp)
    · rw [if_neg hge] at h
      exact absurd h (by simp)

/-- C6 counterexample: the transactional route persists the totalPrice sent
by the client without recomputing it — here a 3-night stay at nightly
price 100 is stored with totalPrice 5, not nights x price = 300. -/
theorem C6_route_stores_client_price_counterexample :
    routeCreate [⟨1, 100⟩] emptyStore 1 9 (some dayMs) (some (4 * dayMs)) 5 0 =
      (.created ⟨0, 1, 9, dayMs, 4 * dayMs, 5, BStatus.confirmed⟩,
       ⟨[⟨0, 1, 9, dayMs, 4 * dayMs, 5, BStatus.confirmed⟩], 1⟩) ∧
    calculateNights dayMs (4 * dayMs) * (100 : Int) = 300 ∧ (5 : Int) ≠ 300 := by
  exact ⟨by decide, by decide, by decide⟩

/-- C6 amended: every successful creation stores and returns a reservation
with status confirmed; the agent path stores totalPrice equal to
`calculateNights * property.price` computed at creation time, while the
transactional route stores the client-supplied totalPrice unchanged. -/
theorem C6_amended_confirmed_and_price :
    (∀ props s pid gid startD endD p b s2,
      findProperty props pid = some p →
      confirmBooking props s pid gid startD endD = (.created b, s2) →
      b.status = BStatus.confirmed ∧
      b.totalPrice = calculateNights startD endD * p.price ∧ b ∈ s2.bookings) ∧
    (∀ props s pid gid sd ed rp now b s2,
      routeCreate props s pid gid sd ed rp now = (.created b, s2) →
      b.status = BStatus.confirmed ∧ b.totalPrice = rp ∧ b ∈ s2.bookings) := by
  constructor
  · intro props s pid gid startD endD p b s2 hfp h
    unfold confirmBooking at h
    rw [hfp] at h
    dsimp only at h
    by_cases hblk : agentBlocks s pid startD endD
    · rw [if_pos hblk] at h
      exact absurd h (by simp)
    · rw [if_neg hblk] at h
      obtain ⟨hb, hs⟩ := bookingCreate_created _ _ _ _ _ _ _ _ h
      subst hb
      subst hs
      exact ⟨rfl, rfl, List.mem_cons_self _ _⟩
  · intro props s pid gid sd ed rp now b s2 h
    unfold routeCreate at h
    rcases sd with _ | startD
    · exact absurd h (by simp)
    rcases ed with _ | endD
    · exact absurd h (by simp)
    dsimp only at h
    by_cases h1 : startD ≥ endD
    · rw [if_pos h1] at h
      exact absurd h (by simp)
    rw [if_neg h1] at h
    by_cases h2 : startD < now
    · rw [if_pos h2] at h
      exact absurd h (by simp)
    rw [if_neg h2] at h
    by_cases h3 : endD - startD > 365 * dayMs
    · rw [if_pos h3] at h
      exact absurd h (by simp)
    rw [if_neg h3] at h
    cases hfp : findProperty props pid with
    | none =>
      rw [hfp] at h
      exact absurd h (by simp)
    | some p =>
      rw [hfp] at h
      dsimp only at h
      by_cases h4 : (findOverlapping s pid startD endD).isEmpty
      · rw [if_pos h4] at h
        obtain ⟨hb, hs⟩ := bookingCreate_created _ _ _ _ _ _ _ _ h
        subst hb
        subst hs
        exact ⟨rfl, rfl, List.mem_cons_self _ _⟩
      · rw [if_neg h4] at h
        exact absurd h (by simp)

/-- Witness for C6 amended at a concrete successful agent creation. -/
theorem C6_amended_confirmed_and_price_witness :
    (⟨0, 1, 8, dayMs, 2 * dayMs, 100, BStatus.confirmed⟩ : Booking).status =
      BStatus.confirmed ∧
    (⟨0, 1, 8, dayMs, 2 * dayMs, 100, BStatus.confirmed⟩ : Booking).totalPrice =
      calculateNights dayMs (2 * dayMs) * (⟨1, 100⟩ : Property).price ∧
    (⟨0, 1, 8, dayMs, 2 * dayMs, 100, BStatus.confirmed⟩ : Booking) ∈
      (⟨[⟨0, 1, 8, dayMs, 2 * dayMs, 100, BStatus.confirmed⟩], 1⟩ : Store).bookings :=
  C6_amended_confirmed_and_price.1 [⟨1, 100⟩] emptyStore 1 8 dayMs (2 * dayMs)
    ⟨1, 100⟩ ⟨0, 1, 8, dayMs, 2 * dayMs, 100, BStatus.confirmed⟩
    ⟨[⟨0, 1, 8, dayMs, 2 * dayMs, 100, BStatus.confirmed⟩], 1⟩
    (by decide) (by decide)

/-- C7 counterexample: `validateBookingDates` compares the check-in
against the current instant, so a check-in at the current day's midnight
(here, one hour after midnight of day 1) is rejected as in the past,
although the claim says a same-day check-in is accepted. -/
theorem C7_same_day_checkin_rejected_counterexample :
    dayMs ≤ dayMs + 3600000 ∧ dayMs + 3600000 < 2 * dayMs ∧
    validateBookingDates (some dayMs) (some (2 * dayMs)) (dayMs + 3600000) =
      .invalid "Check-in date cannot be in the past" := by
  exact ⟨by decide, by decide, by decide⟩

/-- C7 amended: date validation accepts exactly the parseable ranges with
from < to, from not strictly before the current instant, and duration in
[1, 365] days; a 1-night future range is accepted, from = to and
366-night ranges are rejected, and the route rejects any creation whose
check-in is before the current instant. -/
theorem C7_amended_validation :
    (∀ sd ed now, validateBookingDates sd ed now = .valid ↔
      ∃ a b, sd = some a ∧ ed = some b ∧ a < b ∧ now ≤ a ∧
        b - a ≤ 365 * dayMs ∧ dayMs ≤ b - a) ∧
    validateBookingDates (some dayMs) (some (2 * dayMs)) 0 = .valid ∧
    (∀ now x, validateBookingDates (some x) (some x) now ≠ .valid) ∧
    validateBookingDates (some dayMs) (some (367 * dayMs)) 0 ≠ .valid ∧
    (∀ props s pid gid a b rp now, a < b → a < now →
      routeCreate props s pid gid (some a) (some b) rp now =
        (.invalid "Check-in date cannot be in the past", s)) := by
  refine ⟨?_, by decide, ?_, by decide, ?_⟩
  · intro sd ed now
    rcases sd with _ | a
    · simp [validateBookingDates]
    rcases ed with _ | b
    · simp [validateBookingDates]
    unfold validateBookingDates
    dsimp only
    by_cases h1 : a ≥ b
    · rw [if_pos h1]
      simp only [Option.some.injEq]
      constructor
      · intro hc
        exact absurd hc (by simp)
      · rintro ⟨x, y, rfl, rfl, hxy, -, -, -⟩
        omega
    rw [if_neg h1]
    by_cases h2 : a < now
    · rw [if_pos h2]
      simp only [Option.some.injEq]
      constructor
      · intro hc
        exact absurd hc (by simp)
      · rintro ⟨x, y, rfl, rfl, -, hna, -, -⟩
        omega
    rw [if_neg h2]
    by_cases h3 : b - a > 365 * dayMs
    · rw [if_pos h3]
      simp only [Option.some.injEq]
      constructor
      · intro hc
        exact absurd hc (by simp)
      · rintro ⟨x, y, rfl, rfl, -, -, hmax, -⟩
        omega
    rw [if_neg h3]
    by_cases h4 : b - a < dayMs
    · rw [if_pos h4]
      simp only [Option.some.injEq]
      constructor
      · intro hc
        exact absurd hc (by simp)
      · rintro ⟨x, y, rfl, rfl, -, -, -, hmin⟩
        omega
    rw [if_neg h4]
    simp only [Option.some.injEq]
    constructor
    · intro _
      exact ⟨a, b, rfl, rfl, by omega, by omega, by omega, by omega⟩
    · intro _
      trivial
  · intro now x
    unfold validateBookingDates
    dsimp only
    rw [if_pos (le_refl x)]
    simp
  · intro props s pid gid a b rp now hab hnow
    unfold routeCreate
    dsimp only
    rw [if_neg (by omega), if_pos hnow]

/-- Witness for C7 amended: the route rejects a past check-in. -/
theorem C7_amended_validation_witness :
    routeCreate [] emptyStore 1 1 (some 0) (some dayMs) 100 5 =
      (.invalid "Check-in date cannot be in the past", emptyStore) :=
  C7_amended_validation.2.2.2.2 [] emptyStore 1 1 0 dayMs 100 5
    (by decide) (by decide)

/-- C8 counterexample: when the agent commit fails on a conflicting
confirmed reservation, the failure carries an empty interval list even
though a conflicting reservation exists, contradicting the claim that the
Conflict failure carries the conflicting intervals. -/
theorem C8_agent_conflict_carries_no_intervals_counterexample :
    confirmBooking [⟨1, 100⟩]
        ⟨[⟨0, 1, 8, dayMs, 2 * dayMs, 100, BStatus.confirmed⟩], 1⟩
        1 7 dayMs (2 * dayMs) =
      (.conflict [], ⟨[⟨0, 1, 8, dayMs, 2 * dayMs, 100, BStatus.confirmed⟩], 1⟩) ∧
    findOverlapping ⟨[⟨0, 1, 8, dayMs, 2 * dayMs, 100, BStatus.confirmed⟩], 1⟩
        1 dayMs (2 * dayMs) ≠ [] := by
  exact ⟨by decide, by decide⟩

/-- C8 amended: every conflict failure leaves the store unchanged; the
transactional route's own conflict check reports exactly the conflicting
intervals, while the agent commit path reports a Conflict with no interval
list. -/
theorem C8_amended_conflict_behavior :
    (∀ props s pid gid startD endD l s2,
      confirmBooking props s pid gid startD endD = (.conflict l, s2) →
      s2 = s ∧ l = []) ∧
    (∀ props s pid gid sd ed rp now l s2,
      routeCreate props s pid gid sd ed rp now = (.conflict l, s2) → s2 = s) ∧
    (∀ props s pid gid startD endD rp now p,
      startD < endD → now ≤ startD → endD - startD ≤ 365 * dayMs →
      findProperty props pid = some p →
      findOverlapping s pid startD endD ≠ [] →
      routeCreate props s pid gid (some startD) (some endD) rp now =
        (.conflict ((findOverlapping s pid startD endD).map
          (fun b => (b.fromDate, b.toDate))), s)) := by
  refine ⟨?_, ?_, ?_⟩
  · intro props s pid gid startD endD l s2 h
    unfold confirmBooking at h
    cases hfp : findProperty props pid with
    | none =>
      rw [hfp] at h
      exact absurd h (by simp)
    | some p =>
      rw [hfp] at h
      dsimp only at h
      by_cases hblk : agentBlocks s pid startD endD
      · rw [if_pos hblk] at h
        simp only [Prod.mk.injEq, CreateResult.conflict.injEq] at h
        exact ⟨h.2.symm, h.1.symm⟩
      · rw [if_neg hblk] at h
        exact bookingCreate_conflict _ _ _ _ _ _ _ _ h
  · intro props s pid gid sd ed rp now l s2 h
    unfold routeCreate at h
    rcases sd with _ | startD
    · exact absurd h (by simp)
    rcases ed with _ | endD
    · exact absurd h (by simp)
    dsimp only at h
    by_cases h1 : startD ≥ endD
    · rw [if_pos h1] at h
      exact absurd h (by simp)
    rw [if_neg h1] at h
    by_cases h2 : startD < now
    · rw [if_pos h2] at h
      exact absurd h (by simp)
    rw [if_neg h2] at h
    by_cases h3 : endD - startD > 365 * dayMs
    · rw [if_pos h3] at h
      exact absurd h (by simp)
    rw [if_neg h3] at h
    cases hfp : findProperty props pid with
    | none =>
      rw [hfp] at h
      exact absurd h (by simp)
    | some p =>
      rw [hfp] at h
      dsimp only at h
      by_cases h4 : (findOverlapping s pid startD endD).isEmpty
      · rw [if_pos h4] at h
        exact (bookingCreate_conflict _ _ _ _ _ _ _ _ h).1
      · rw [if_neg h4] at h
        simp only [Prod.mk.injEq, CreateResult.conflict.injEq] at h
        exact h.2.symm
  · intro props s pid gid startD endD rp now p hlt hnow hdur hfp hconf
    unfold routeCreate
    dsimp only
    rw [if_neg (by omega), if_neg (by omega), if_neg (by omega), hfp]
    dsimp only
    rw [if_neg (by
      rw [List.isEmpty_iff]
      exact hconf)]

/-- Witness for C8 amended: the route's conflict failure on a stored
confirmed reservation reports that reservation's interval and leaves the
store unchanged. -/
theorem C8_amended_conflict_behavior_witness :
    routeCreate [⟨1, 100⟩]
        ⟨[⟨0, 1, 8, dayMs, 2 * dayMs, 100, BStatus.confirmed⟩], 1⟩
        1 7 (some dayMs) (some (2 * dayMs)) 100 0 =
      (.conflict [(dayMs, 2 * dayMs)],
       ⟨[⟨0, 1, 8, dayMs, 2 * dayMs, 100, BStatus.confirmed⟩], 1⟩) := by
  have h := C8_amended_conflict_behavior.2.2 [⟨1, 100⟩]
    ⟨[⟨0, 1, 8, dayMs, 2 * dayMs, 100, BStatus.confirmed⟩], 1⟩
    1 7 dayMs (2 * dayMs) 100 0 ⟨1, 100⟩
    (by decide) (by decide) (by decide) (by decide) (by decide)
  rw [h]
  decide

/-- C9: the quote operation `prepareBooking` returns the store it was
given unchanged in every branch, on success and on every failure; and
because no hold is placed, a second holder can commit the quoted range
first, after which the quoting holder's own commit fails with Conflict. -/
theorem C9_quote_reserves_nothing :
    (∀ props s pid startD endD today,
      (prepareBooking props s pid startD endD today).2 = s) ∧
    prepareBooking [⟨1, 100⟩] emptyStore 1 dayMs (2 * dayMs) 0 =
      (.quote 1 100, emptyStore) ∧
    confirmBooking [⟨1, 100⟩] emptyStore 1 8 dayMs (2 * dayMs) =
      (.created ⟨0, 1, 8, dayMs, 2 * dayMs, 100, BStatus.confirmed⟩,
       ⟨[⟨0, 1, 8, dayMs, 2 * dayMs, 100, BStatus.confirmed⟩], 1⟩) ∧
    confirmBooking [⟨1, 100⟩]
        ⟨[⟨0, 1, 8, dayMs, 2 * dayMs, 100, BStatus.confirmed⟩], 1⟩
        1 7 dayMs (2 * dayMs) =
      (.conflict [], ⟨[⟨0, 1, 8, dayMs, 2 * dayMs, 100, BStatus.confirmed⟩], 1⟩) := by
  refine ⟨?_, by decide, by decide, by decide⟩
  intro props s pid startD endD today
  unfold prepareBooking
  cases findProperty props pid with
  | none => rfl
  | some p =>
    dsimp only
    by_cases h1 : startD ≥ endD
    · rw [if_pos h1]
    · rw [if_neg h1]
      by_cases h2 : startD < today
      · rw [if_pos h2]
      · rw [if_neg h2]
        by_cases h3 : agentBlocks s pid startD endD
        · rw [if_pos h3]
        · rw [if_neg h3]

/-- C10: the single availability check runs the full creation-time date
validation first: for any query whose dates fail to parse, whose start is
strictly before the current instant, whose range is empty or inverted, or
whose duration exceeds 365 days, it returns a validation error and never
an availability verdict. -/
theorem C10_availability_validates_before_answering
    (props : List Property) (s : Store) (pid : Nat) (sd ed : Option Int) (now : Int)
    (h : sd = none ∨ ed = none ∨
      ∃ a b, sd = some a ∧ ed = some b ∧ (a < now ∨ b ≤ a ∨ 365 * dayMs < b - a)) :
    ∃ m, availabilityGET props s pid sd ed now = .badRequest m := by
  rcases sd with _ | a
  · exact ⟨_, rfl⟩
  rcases ed with _ | b
  · exact ⟨_, rfl⟩
  have hcases : a < now ∨ b ≤ a ∨ 365 * dayMs < b - a := by
    rcases h with h | h | h
    · exact absurd h (by simp)
    · exact absurd h (by simp)
    · obtain ⟨x, y, hx, hy, hc⟩ := h
      simp only [Option.some.injEq] at hx hy
      subst hx
      subst hy
      exact hc
  have hval : ∃ m, validateBookingDates (some a) (some b) now = .invalid m := by
    unfold validateBookingDates
    dsimp only
    by_cases h1 : a ≥ b
    · rw [if_pos h1]
      exact ⟨_, rfl⟩
    rw [if_neg h1]
    by_cases h2 : a < now
    · rw [if_pos h2]
      exact ⟨_, rfl⟩
    rw [if_neg h2]
    by_cases h3 : b - a > 365 * dayMs
    · rw [if_pos h3]
      exact ⟨_, rfl⟩
    · omega
  obtain ⟨m, hm⟩ := hval
  refine ⟨m, ?_⟩
  unfold availabilityGET
  dsimp only
  rw [hm]

/-- Witness for C10: a query whose start lies before the current instant
yields a validation error. -/
theorem C10_availability_validates_before_answering_witness :
    ∃ m, availabilityGET [] emptyStore 1 (some 0) (some dayMs) 5 = .badRequest m :=
  C10_availability_validates_before_answering [] emptyStore 1 (some 0) (some dayMs) 5
    (Or.inr (Or.inr ⟨0, dayMs, rfl, rfl, Or.inl (by decide)⟩))
